import Mathlib

/-!
Shallow embedding of the remote-assembly-resolution subsystem of
FlyBase/blast-db-configuration, file src/blast_db_configuration/ncbi/genomes.py.

Modelling conventions:
- The FTP session is an oracle (`FtpWorld`): `mlsd p` is the outcome of the
  MLSD directory listing at path `p`; `retr p` is the sequence of text lines
  delivered by `retrlines` for file `p`, paired with an optional transport
  error raised after those lines were delivered.
- Python transport exceptions caught by `except ftplib...` are the
  `FtpErr` values of the oracle; Python exceptions that the source does NOT
  catch (ValueError from tuple unpacking, AttributeError from calling
  `.search` on None) are modelled with `Except PyExc`.
- The module-level dict FTP_FILES_CACHE is threaded explicitly as a `Cache`
  value (state in, state out).
- Calls to the logger and to the network are recorded in an event list `Ev`
  so that diagnostics and at-most-one-network-call properties are statable.
- Python string operations used by the source (str.strip, str.replace of a
  single character, re.split on whitespace runs, pathlib name extraction) are
  given executable character-list models below.
-/

namespace BlastDb

abbrev Facts := List (String × String)

abbrev FtpListing := List (String × Facts)

abbrev Md5Table := List (String × String)

/-- Exceptions of the host language that the source code does not catch. -/
inductive PyExc where
  | valueError
  | attributeError
  deriving DecidableEq

/-- Transport errors raised by ftplib and caught by the source code.
`permNoSuchFile` models `ftplib.error_perm` whose text contains
"No such file or directory"; `permOther` the other `error_perm` cases;
`otherErr` the remaining members of `ftplib.all_errors`. -/
inductive FtpErr where
  | permNoSuchFile
  | permOther
  | otherErr
  deriving DecidableEq

/-- Observable events of one resolution call: network operations and logger
diagnostics, in program order. -/
inductive Ev where
  | netMlsd (path : String)
  | netRetr (path : String)
  | errFtp
  | errNoAssemblyDir
  | errMd5Fetch
  | warnMultipleAssemblies
  | warnMultipleMd5
  | warnNoMd5
  deriving DecidableEq

/-- The closed StrEnum OrganismGroup of the source. -/
inductive OrganismGroup where
  | archaea
  | bacteria
  | fungi
  | invertebrate
  | metagenomes
  | mitochondria
  | plant
  | plasmid
  | plastid
  | protozoa
  | vertebrateMammalian
  | vertebrateOther
  | viral
  deriving DecidableEq

/-- The string value of each OrganismGroup member. -/
def OrganismGroup.toStr : OrganismGroup → String
  | .archaea => "archaea"
  | .bacteria => "bacteria"
  | .fungi => "fungi"
  | .invertebrate => "invertebrate"
  | .metagenomes => "metagenomes"
  | .mitochondria => "mitochondria"
  | .plant => "plant"
  | .plasmid => "plasmid"
  | .plastid => "plastid"
  | .protozoa => "protozoa"
  | .vertebrateMammalian => "vertebrate_mammalian"
  | .vertebrateOther => "vertebrate_other"
  | .viral => "viral"

/-- Value lookup of the StrEnum: `OrganismGroup(s)` succeeds exactly on the
thirteen member values. -/
def OrganismGroup.fromString (s : String) : Option OrganismGroup :=
  if s = "archaea" then some .archaea
  else if s = "bacteria" then some .bacteria
  else if s = "fungi" then some .fungi
  else if s = "invertebrate" then some .invertebrate
  else if s = "metagenomes" then some .metagenomes
  else if s = "mitochondria" then some .mitochondria
  else if s = "plant" then some .plant
  else if s = "plasmid" then some .plasmid
  else if s = "plastid" then some .plastid
  else if s = "protozoa" then some .protozoa
  else if s = "vertebrate_mammalian" then some .vertebrateMammalian
  else if s = "vertebrate_other" then some .vertebrateOther
  else if s = "viral" then some .viral
  else none

/-- Lines 59-60 of the source: a raw string is coerced through the StrEnum
constructor, which raises ValueError on an unknown value. -/
def coerceGroup : String ⊕ OrganismGroup → Except PyExc OrganismGroup
  | .inl s =>
    match OrganismGroup.fromString s with
    | some g => .ok g
    | none => .error .valueError
  | .inr g => .ok g

/-- The transport oracle: outcome of every possible MLSD listing and every
possible retrlines retrieval during one resolution call.  For `retr`, the
first component is the sequence of lines delivered to the callback and the
second an optional transport error occurring after those lines. -/
structure FtpWorld where
  mlsd : String → Except FtpErr FtpListing
  retr : String → List String × Option FtpErr

abbrev Cache := String → Option FtpListing

def emptyCache : Cache := fun _ => none

def cacheInsert (c : Cache) (p : String) (l : FtpListing) : Cache :=
  fun q => if q = p then some l else c q

def FTP_HOST : String := "ftp.ncbi.nlm.nih.gov"

/-- Model of Python str.strip(): drop whitespace at both ends. -/
def pyStrip (s : String) : String :=
  ⟨((s.data.dropWhile Char.isWhitespace).reverse.dropWhile Char.isWhitespace).reverse⟩

/-- Model of Python str.replace of the single character space by underscore. -/
def replaceSpaces (s : String) : String :=
  ⟨s.data.map (fun c => if c = ' ' then '_' else c)⟩

/-- Model of Python str.startswith. -/
def beginsWith (pre s : String) : Bool :=
  pre.data.isPrefixOf s.data

/-- State machine for re.split on runs of whitespace: `some acc` means we are
inside a token whose characters (reversed) are `acc`; `none` means we are
inside a separator run whose token has already been emitted. -/
def splitWsGo : List Char → Option (List Char) → List String
  | [], some acc => [⟨acc.reverse⟩]
  | [], none => [""]
  | c :: cs, some acc =>
    if c.isWhitespace then ⟨acc.reverse⟩ :: splitWsGo cs none
    else splitWsGo cs (some (c :: acc))
  | c :: cs, none =>
    if c.isWhitespace then splitWsGo cs none
    else splitWsGo cs (some [c])

/-- Model of re.split(r"\s+", s): separators are maximal whitespace runs;
leading or trailing runs contribute empty boundary tokens, and the empty
string yields one empty token, as in Python. -/
def reSplitWs (s : String) : List String :=
  splitWsGo s.data (some [])

/-- Helper for pathlib name extraction: split a character list at every
slash. -/
def splitOnSlash : List Char → List (List Char)
  | [] => [[]]
  | c :: rest =>
    if c = '/' then [] :: splitOnSlash rest
    else
      match splitOnSlash rest with
      | t :: ts => (c :: t) :: ts
      | [] => [[c]]

/-- Model of Python Path(s).name: the last path component, with empty
components and single-dot components removed during parsing. -/
def pathName (s : String) : String :=
  let parts := (splitOnSlash s.data).filter (fun p => !p.isEmpty && p != ['.'])
  ⟨(parts.getLast?.getD [])⟩

/-- The callback get_md5sum applied to every delivered manifest line in
order (source lines 115-123): each line is split on whitespace runs and
unpacked into exactly two names; any other token count raises ValueError
(tuple unpacking), which the source does not catch.  Well-formed lines
insert (basename, checksum) into the dict; the dict is modelled as a list
with most-recent-first insertion so that lookup is last-write-wins. -/
def parseMd5Lines : List String → Md5Table → Except PyExc Md5Table
  | [], acc => .ok acc
  | line :: rest, acc =>
    match reSplitWs line with
    | [checksum, remote_file] =>
      parseMd5Lines rest ((pathName remote_file, checksum) :: acc)
    | _ => .error .valueError

/-- Python dict lookup on the most-recent-first association list. -/
def tblLookup (k : String) : Md5Table → Option String
  | [] => none
  | (k2, v) :: rest => if k2 = k then some v else tblLookup k rest

/-- Line 187 of the source: `re.compile(file_regex) if file_regex else None`.
Python truthiness makes both None and the empty string produce None.  The
regex engine itself is abstracted by `compile`, mapping a pattern source to
the boolean search function of the compiled pattern. -/
def pyCompiled (compile : String → String → Bool) :
    Option String → Option (String → Bool)
  | none => none
  | some s => if s = "" then none else some (compile s)

/-- The loop of filter_ftp_paths (source lines 186-192): for each listing
entry, `pattern.search(filename.strip())` is evaluated; when the compiled
pattern is None this is an attribute access on None and raises
AttributeError at the first entry. Matching entries contribute their
original (unstripped) filename, in listing order. -/
def filterLoop (pat : Option (String → Bool)) :
    FtpListing → Except PyExc (List String)
  | [] => .ok []
  | (filename, _) :: rest =>
    match pat with
    | none => .error .attributeError
    | some p =>
      match filterLoop pat rest with
      | .error e => .error e
      | .ok tail => .ok (if p (pyStrip filename) then filename :: tail else tail)

/-- filter_ftp_paths (source lines 176-192). -/
def filter_ftp_paths (compile : String → String → Bool)
    (files : FtpListing) (file_regex : Option String) :
    Except PyExc (List String) :=
  filterLoop (pyCompiled compile file_regex) files

/-- The accession-directory candidates computed at source line 71:
filter_ftp_paths applied with the fixed pattern source `^GC[AF]_`. -/
def accessionCandidates (compile : String → String → Bool)
    (files : FtpListing) : List String :=
  (files.filter (fun e => compile "^GC[AF]_" (pyStrip e.1))).map Prod.fst

/-- The absolute URI built at source line 133. -/
def mkUri (path assembly_dir file : String) : String :=
  "ftp://" ++ FTP_HOST ++ path ++ "/" ++ assembly_dir ++ "/" ++ file

/-- The manifest path used at source line 121. -/
def manifestOf (path assembly_dir : String) : String :=
  path ++ "/" ++ assembly_dir ++ "/md5checksums.txt"

/-- One descriptor candidate (source lines 128-136): present exactly when
the classified file has a checksum in the table. -/
def gBuild (assembly_dir path : String) (ck : Md5Table) (file : String) :
    Option (String × String × String) :=
  (tblLookup file ck).map (fun md5 => (assembly_dir, mkUri path assembly_dir file, md5))

/-- The descriptor-building loop (source lines 127-144), accumulating
files_with_md5 and the per-iteration warnings, which in the source are
emitted inside the loop based on the running length of the accumulator. -/
def buildLoop (assembly_dir path : String) (ck : Md5Table) :
    List String → List (String × String × String) →
    List (String × String × String) × List Ev
  | [], acc => (acc, [])
  | file :: rest, acc =>
    let acc2 := match gBuild assembly_dir path ck file with
      | some d => acc ++ [d]
      | none => acc
    let ev : List Ev :=
      if acc2.length > 1 then [.warnMultipleMd5]
      else if acc2.length = 0 then [.warnNoMd5]
      else []
    let r := buildLoop assembly_dir path ck rest acc2
    (r.1, ev ++ r.2)

/-- Source lines 95-101: consult FTP_FILES_CACHE for the assembly directory
path; on a miss, list it over the network and store the listing before
returning it.  A listing that raises is not stored. -/
def getOrFetchListing (w : FtpWorld) (p : String) (cache : Cache) :
    Except FtpErr FtpListing × Cache × List Ev :=
  match cache p with
  | some files => (.ok files, cache, [])
  | none =>
    match w.mlsd p with
    | .ok files => (.ok files, cacheInsert cache p files, [.netMlsd p])
    | .error e => (.error e, cache, [.netMlsd p])

/-- The path composed at source line 62. -/
def orgPath (og : OrganismGroup) (genus species : String) : String :=
  "/genomes/refseq/" ++ og.toStr ++ "/" ++ genus ++ "_" ++ replaceSpaces species ++
    "/latest_assembly_versions"

/-- Source lines 92-146: processing after at least one assembly-directory
candidate was found.  `d1` is the first candidate and `rest` the others;
the ambiguity warning is emitted when `rest` is nonempty.  Transport errors
while listing the assembly directory or fetching the manifest are absorbed;
a classifier AttributeError or a manifest-line ValueError propagates. -/
def afterDirs (compile : String → String → Bool) (w : FtpWorld)
    (path d1 : String) (rest : List String) (file_regex : Option String)
    (cache : Cache) :
    Except PyExc (Option (String × String × String)) × Cache × List Ev :=
  let ambEv : List Ev := if rest.isEmpty then [] else [.warnMultipleAssemblies]
  let p := path ++ "/" ++ d1
  match getOrFetchListing w p cache with
  | (.error _, cache2, evs) =>
    (.ok none, cache2, .netMlsd path :: (ambEv ++ evs ++ [.errFtp]))
  | (.ok assembly_files, cache2, evs) =>
    match filter_ftp_paths compile assembly_files file_regex with
    | .error e => (.error e, cache2, .netMlsd path :: (ambEv ++ evs))
    | .ok filtered =>
      let mp := manifestOf path d1
      match parseMd5Lines (w.retr mp).1 [] with
      | .error e =>
        (.error e, cache2, .netMlsd path :: (ambEv ++ evs ++ [.netRetr mp]))
      | .ok checksums =>
        let fetchEv : List Ev := match (w.retr mp).2 with
          | some _ => [.errMd5Fetch]
          | none => []
        let built := buildLoop d1 path checksums filtered []
        (.ok built.1.head?, cache2,
          .netMlsd path :: (ambEv ++ evs ++ [.netRetr mp] ++ fetchEv ++ built.2))

/-- Model of get_current_genome_assembly_files (source lines 42-150).  The session
open/login of lines 63-66 is the oracle itself; all paths after a
successful login are modelled.  Every ftplib error during the root listing
(both error_perm branches and the generic branch, lines 72-84) returns
None.  Zero candidates returns None with a diagnostic (lines 148-150). -/
def get_current_genome_assembly_files (compile : String → String → Bool)
    (w : FtpWorld) (genus species : String)
    (organism_group : String ⊕ OrganismGroup) (file_regex : Option String)
    (cache : Cache) :
    Except PyExc (Option (String × String × String)) × Cache × List Ev :=
  match coerceGroup organism_group with
  | .error e => (.error e, cache, [])
  | .ok og =>
    let path := orgPath og genus species
    match w.mlsd path with
    | .error _ => (.ok none, cache, [.netMlsd path, .errFtp])
    | .ok files =>
      match filter_ftp_paths compile files (some "^GC[AF]_") with
      | .error e => (.error e, cache, [.netMlsd path])
      | .ok [] => (.ok none, cache, [.netMlsd path, .errNoAssemblyDir])
      | .ok (d1 :: rest) => afterDirs compile w path d1 rest file_regex cache

/-- The checksum table obtainable from the manifest of one assembly
directory, empty when parsing raises. -/
def md5TableOf (w : FtpWorld) (path assembly_dir : String) : Md5Table :=
  match parseMd5Lines (w.retr (manifestOf path assembly_dir)).1 [] with
  | .ok t => t
  | .error _ => []

/-! ## Helper lemmas -/

theorem filterLoop_some (p : String → Bool) (files : FtpListing) :
    filterLoop (some p) files =
      .ok ((files.filter (fun e => p (pyStrip e.1))).map Prod.fst) := by
  induction files with
  | nil => rfl
  | cons e rest ih =>
    obtain ⟨filename, facts⟩ := e
    rw [filterLoop, ih, List.filter_cons]
    by_cases h : p (pyStrip (filename, facts).1)
    · simp [h]
    · simp [h]

theorem filter_ftp_paths_some (compile : String → String → Bool)
    (files : FtpListing) (r : String) (hr : r ≠ "") :
    filter_ftp_paths compile files (some r) =
      .ok ((files.filter (fun e => compile r (pyStrip e.1))).map Prod.fst) := by
  rw [filter_ftp_paths, pyCompiled, if_neg hr, filterLoop_some]

theorem filter_ftp_paths_gcaf (compile : String → String → Bool)
    (files : FtpListing) :
    filter_ftp_paths compile files (some "^GC[AF]_") =
      .ok (accessionCandidates compile files) := by
  rw [filter_ftp_paths_some compile files _ (by decide), accessionCandidates]

theorem filterLoop_none_ne_nil (files : FtpListing) (h : files ≠ []) :
    filterLoop none files = .error .attributeError := by
  cases files with
  | nil => exact absurd rfl h
  | cons e rest => obtain ⟨fn, fc⟩ := e; rfl

theorem parseMd5Lines_ok : ∀ (lines : List String) (acc : Md5Table),
    (∀ l ∈ lines, (reSplitWs l).length = 2) →
    ∃ t, parseMd5Lines lines acc = .ok t := by
  intro lines
  induction lines with
  | nil => intro acc _; exact ⟨acc, rfl⟩
  | cons line rest ih =>
    intro acc h
    have h1 := h line (by simp)
    rcases hsp : reSplitWs line with _ | ⟨x, _ | ⟨y, _ | ⟨z, t⟩⟩⟩
    · rw [hsp] at h1; simp at h1
    · rw [hsp] at h1; simp at h1
    · rw [parseMd5Lines, hsp]
      exact ih _ (fun l hl => h l (List.mem_cons_of_mem _ hl))
    · rw [hsp] at h1; simp at h1

theorem parseMd5Lines_error : ∀ (lines : List String) (acc : Md5Table),
    (∃ l ∈ lines, (reSplitWs l).length ≠ 2) →
    parseMd5Lines lines acc = .error .valueError := by
  intro lines
  induction lines with
  | nil => intro acc h; simp at h
  | cons line rest ih =>
    intro acc h
    rcases hsp : reSplitWs line with _ | ⟨x, _ | ⟨y, _ | ⟨z, t⟩⟩⟩
    · rw [parseMd5Lines, hsp]
    · rw [parseMd5Lines, hsp]
    · have hrest : ∃ l ∈ rest, (reSplitWs l).length ≠ 2 := by
        obtain ⟨l, hl, hne⟩ := h
        rw [List.mem_cons] at hl
        rcases hl with hl | hl
        · subst hl; rw [hsp] at hne; simp at hne
        · exact ⟨l, hl, hne⟩
      rw [parseMd5Lines, hsp]
      exact ih _ hrest
    · rw [parseMd5Lines, hsp]

theorem buildLoop_fst (ad path : String) (ck : Md5Table) :
    ∀ (files : List String) (acc : List (String × String × String)),
    (buildLoop ad path ck files acc).1 =
      acc ++ files.filterMap (gBuild ad path ck) := by
  intro files
  induction files with
  | nil => intro acc; simp [buildLoop]
  | cons f rest ih =>
    intro acc
    rw [buildLoop]
    cases hg : gBuild ad path ck f with
    | none => simp only [hg, List.filterMap_cons]; exact ih acc
    | some d =>
      simp only [hg, List.filterMap_cons, ih, List.append_assoc,
        List.singleton_append]

theorem buildLoop_evs_mem (ad path : String) (ck : Md5Table) :
    ∀ (files : List String) (acc : List (String × String × String)),
    ∀ e ∈ (buildLoop ad path ck files acc).2,
      e = Ev.warnMultipleMd5 ∨ e = Ev.warnNoMd5 := by
  intro files
  induction files with
  | nil => intro acc e he; simp [buildLoop] at he
  | cons f rest ih =>
    intro acc e he
    rw [buildLoop] at he
    simp only [List.mem_append] at he
    rcases he with he | he
    · split at he
      · simp at he; exact Or.inl he
      · split at he
        · simp at he; exact Or.inr he
        · simp at he
    · exact ih _ e he

theorem buildLoop_warn (ad path : String) (ck : Md5Table) :
    ∀ (files : List String) (acc : List (String × String × String)),
    files.filter (fun f => (tblLookup f ck).isSome) ≠ [] →
    2 ≤ acc.length + (files.filter (fun f => (tblLookup f ck).isSome)).length →
    Ev.warnMultipleMd5 ∈ (buildLoop ad path ck files acc).2 := by
  intro files
  induction files with
  | nil => intro acc hne _; simp at hne
  | cons f rest ih =>
    intro acc hne hlen
    rw [List.filter_cons] at hne hlen
    by_cases hl : (tblLookup f ck).isSome
    · obtain ⟨md5, hmd5⟩ := Option.isSome_iff_exists.mp hl
      have hg : gBuild ad path ck f = some (ad, mkUri path ad f, md5) := by
        rw [gBuild, hmd5]; rfl
      rw [if_pos hl] at hlen
      simp only [List.length_cons] at hlen
      rcases Nat.eq_zero_or_pos acc.length with ha | ha
      · have hne2 : rest.filter (fun f => (tblLookup f ck).isSome) ≠ [] := by
          intro hcon
          rw [hcon, ha] at hlen; simp at hlen
        have hlen2 : 2 ≤ (acc ++ [(ad, mkUri path ad f, md5)]).length +
            (rest.filter (fun f => (tblLookup f ck).isSome)).length := by
          rw [List.length_append, List.length_singleton]
          have : (rest.filter (fun f => (tblLookup f ck).isSome)).length ≠ 0 :=
            fun hc => hne2 (List.length_eq_zero.mp hc)
          omega
        rw [buildLoop]
        simp only [hg]
        exact List.mem_append_right _ (ih _ hne2 hlen2)
      · have hgt : (acc ++ [(ad, mkUri path ad f, md5)]).length > 1 := by
          rw [List.length_append, List.length_singleton]; omega
        rw [buildLoop]
        simp only [hg, if_pos hgt]
        exact List.mem_append_left _ (by simp)
    · have hnone : tblLookup f ck = none := Option.not_isSome_iff_eq_none.mp hl
      have hg : gBuild ad path ck f = none := by
        rw [gBuild, hnone]; rfl
      rw [if_neg hl] at hne hlen
      rw [buildLoop]
      simp only [hg]
      exact List.mem_append_right _ (ih _ hne hlen)

theorem filterMap_gBuild_nil (ad path : String) (ck : Md5Table) :
    ∀ files : List String,
    files.filter (fun f => (tblLookup f ck).isSome) = [] →
    files.filterMap (gBuild ad path ck) = [] := by
  intro files
  induction files with
  | nil => intro _; rfl
  | cons f rest ih =>
    intro h
    rw [List.filter_cons] at h
    by_cases hl : (tblLookup f ck).isSome
    · rw [if_pos hl] at h; exact absurd h (by simp)
    · have hnone : tblLookup f ck = none := Option.not_isSome_iff_eq_none.mp hl
      rw [if_neg hl] at h
      rw [List.filterMap_cons, gBuild, hnone, Option.map_none']
      exact ih h

theorem filterMap_gBuild_cons (ad path : String) (ck : Md5Table) :
    ∀ (files : List String) (f : String) (fs : List String),
    files.filter (fun f => (tblLookup f ck).isSome) = f :: fs →
    ∃ md5 t, tblLookup f ck = some md5 ∧
      files.filterMap (gBuild ad path ck) = (ad, mkUri path ad f, md5) :: t := by
  intro files
  induction files with
  | nil => intro f fs h; simp at h
  | cons g rest ih =>
    intro f fs h
    rw [List.filter_cons] at h
    by_cases hl : (tblLookup g ck).isSome
    · rw [if_pos hl] at h
      rw [List.cons.injEq] at h
      obtain ⟨rfl, _⟩ := h
      obtain ⟨md5, hmd5⟩ := Option.isSome_iff_exists.mp hl
      refine ⟨md5, rest.filterMap (gBuild ad path ck), hmd5, ?_⟩
      rw [List.filterMap_cons, gBuild, hmd5, Option.map_some']
    · have hnone : tblLookup g ck = none := Option.not_isSome_iff_eq_none.mp hl
      rw [if_neg hl] at h
      rw [List.filterMap_cons, gBuild, hnone, Option.map_none']
      exact ih f fs h

theorem head?_filterMap_gBuild (ad path : String) (ck : Md5Table)
    (files : List String) (d : String × String × String)
    (h : (files.filterMap (gBuild ad path ck)).head? = some d) :
    ∃ file md5, tblLookup file ck = some md5 ∧
      d = (ad, mkUri path ad file, md5) := by
  have hmem : d ∈ files.filterMap (gBuild ad path ck) := by
    cases hl : files.filterMap (gBuild ad path ck) with
    | nil => rw [hl] at h; simp at h
    | cons a t =>
      rw [hl] at h
      simp only [List.head?_cons, Option.some.injEq] at h
      rw [← h]
      exact List.mem_cons_self a t
  rw [List.mem_filterMap] at hmem
  obtain ⟨file, _, hfb⟩ := hmem
  rw [gBuild] at hfb
  cases hlk : tblLookup file ck with
  | none => rw [hlk, Option.map_none'] at hfb; exact absurd hfb (by simp)
  | some md5 =>
    rw [hlk, Option.map_some', Option.some.injEq] at hfb
    exact ⟨file, md5, hlk, hfb.symm⟩

theorem getOrFetchListing_evs (w : FtpWorld) (p : String) (c : Cache) :
    ∀ e ∈ (getOrFetchListing w p c).2.2, e = Ev.netMlsd p := by
  intro e he
  rw [getOrFetchListing] at he
  cases hc : c p with
  | some l => rw [hc] at he; simp at he
  | none =>
    rw [hc] at he
    cases hm : w.mlsd p with
    | ok files => rw [hm] at he; simp at he; exact he
    | error err => rw [hm] at he; simp at he; exact he

/-! ## Concrete worlds used by witnesses and counterexamples -/

/-- A concrete regex-engine interpretation: the fixed accession pattern
searches for a GCA_/GCF_ start on the stripped name; every other pattern
matches everything. -/
def compileC : String → String → Bool := fun pat s =>
  if pat = "^GC[AF]_" then beginsWith "GCA_" s || beginsWith "GCF_" s else true

def pathC : String := orgPath .invertebrate "Apis" "mellifera"

/-- A world whose assembly-directory listing always fails. -/
def w7 : FtpWorld where
  mlsd := fun p => if p = pathC then .ok [("GCF_9", [])] else .error .otherErr
  retr := fun _ => ([], none)

/-- A world whose manifest contains a line with a single token. -/
def wBad : FtpWorld where
  mlsd := fun p =>
    if p = pathC then .ok [("GCF_9", [])]
    else if p = pathC ++ "/GCF_9" then .ok [("genome.fna", [])]
    else .error .otherErr
  retr := fun p =>
    if p = pathC ++ "/GCF_9/md5checksums.txt" then (["justonetoken"], none)
    else ([], none)

/-- A world whose latest_assembly_versions listing has no
accession-prefixed child. -/
def w4zero : FtpWorld where
  mlsd := fun p => if p = pathC then .ok [("readme.txt", [])] else .error .otherErr
  retr := fun _ => ([], none)

/-- A world whose latest_assembly_versions listing has two
accession-prefixed children. -/
def w4multi : FtpWorld where
  mlsd := fun p =>
    if p = pathC then .ok [("GCF_1", []), ("GCF_2", [])]
    else if p = pathC ++ "/GCF_1" then .ok [("genome.fna", [])]
    else .error .otherErr
  retr := fun _ => ([], none)

/-- A fully successful world: one assembly directory, one file, a
well-formed manifest line for it. -/
def wGood : FtpWorld where
  mlsd := fun p =>
    if p = pathC then .ok [("GCF_9", [])]
    else if p = pathC ++ "/GCF_9" then .ok [("genome.fna", [])]
    else .error .otherErr
  retr := fun p =>
    if p = pathC ++ "/GCF_9/md5checksums.txt" then (["abc genome.fna"], none)
    else ([], none)

/-! ## Claim C2 -/

/-- Claim C2, counterexample: in the manifest text with lines
"abc123 a.txt", "justone", "def456 b.txt", the single-token middle line is
not skipped; the parse aborts with ValueError instead of producing the
table of the two well-formed lines. -/
theorem c2_counterexample :
    parseMd5Lines ["abc123 a.txt", "justone", "def456 b.txt"] [] =
      .error PyExc.valueError := rfl

/-- Claim C2 as amended: a checksum-manifest line that does not split into
exactly two whitespace-separated tokens causes the whole parse to abort
with ValueError (uncaught tuple-unpacking failure), rather than being
skipped while parsing continues. -/
theorem c2_amended_malformed_line_aborts (lines : List String) (acc : Md5Table)
    (h : ∃ l ∈ lines, (reSplitWs l).length ≠ 2) :
    parseMd5Lines lines acc = .error PyExc.valueError :=
  parseMd5Lines_error lines acc h

/-- Witness for the amended C2 at a concrete manifest. -/
theorem c2_amended_witness :
    parseMd5Lines ["abc123 a.txt", "justone"] [] = .error PyExc.valueError :=
  c2_amended_malformed_line_aborts ["abc123 a.txt", "justone"] []
    ⟨"justone", by simp, by decide⟩

/-! ## Claim C3 -/

/-- Claim C3: for every listing and every supplied (nonempty) pattern
source, filter_ftp_paths returns exactly the filenames of the listing whose
stripped name the compiled pattern matches, in the original listing order;
when nothing matches the result is the empty list, not an error.  The
result is a pure function of its inputs, hence deterministic. -/
theorem c3_classifier (compile : String → String → Bool) (files : FtpListing)
    (r : String) (hr : r ≠ "") :
    filter_ftp_paths compile files (some r) =
      .ok ((files.filter (fun e => compile r (pyStrip e.1))).map Prod.fst) ∧
    ((∀ e ∈ files, compile r (pyStrip e.1) = false) →
      filter_ftp_paths compile files (some r) = .ok []) := by
  refine ⟨filter_ftp_paths_some compile files r hr, fun h => ?_⟩
  rw [filter_ftp_paths_some compile files r hr]
  have hnil : files.filter (fun e => compile r (pyStrip e.1)) = [] := by
    rw [List.filter_eq_nil_iff]
    intro a ha
    simp [h a ha]
  rw [hnil]
  rfl

/-- Witness for C3 at a concrete listing and pattern. -/
theorem c3_witness :
    ("g" : String) ≠ "" ∧
    filter_ftp_paths compileC [("genome.fna", []), ("readme", [])] (some "g") =
      .ok ["genome.fna", "readme"] := by
  refine ⟨by decide, ?_⟩
  rw [(c3_classifier compileC [("genome.fna", []), ("readme", [])] "g"
    (by decide)).1]
  rfl

/-! ## Claim C10 -/

/-- Claim C10: with the documented default of no file pattern,
filter_ftp_paths raises AttributeError on every non-empty listing (the
compiled pattern is None and None.search is an invalid attribute access);
it is total when the listing is empty or a nonempty pattern is supplied. -/
theorem c10_none_pattern (compile : String → String → Bool)
    (files : FtpListing) (h : files ≠ []) :
    filter_ftp_paths compile files none = .error PyExc.attributeError ∧
    filter_ftp_paths compile ([] : FtpListing) none = .ok [] ∧
    (∀ r : String, r ≠ "" →
      ∃ out, filter_ftp_paths compile files (some r) = .ok out) := by
  refine ⟨?_, rfl, fun r hr => ⟨_, filter_ftp_paths_some compile files r hr⟩⟩
  rw [filter_ftp_paths]
  exact filterLoop_none_ne_nil files h

/-- Witness for C10 at a concrete one-entry listing. -/
theorem c10_witness :
    filter_ftp_paths compileC [("genome.fna", [])] none =
      .error PyExc.attributeError :=
  (c10_none_pattern compileC [("genome.fna", [])] (by simp)).1

/-! ## Claim C6 -/

/-- Claim C6: for every classified file list and checksum table, the
descriptor builder emits absent when no classified file has a checksum;
when some do, it emits exactly the descriptor triple (accession, absolute
URI, checksum) of the first such file in classified order, and when there
is more than one it also logs the multiple-checksums warning.  The builder
is a total function (it never raises). -/
theorem c6_builder (ad path : String) (ck : Md5Table) (filtered : List String)
    (f : String) (fs : List String) :
    (filtered.filter (fun x => (tblLookup x ck).isSome) = [] →
      (buildLoop ad path ck filtered []).1.head? = none) ∧
    (filtered.filter (fun x => (tblLookup x ck).isSome) = f :: fs →
      ∃ md5, tblLookup f ck = some md5 ∧
        (buildLoop ad path ck filtered []).1.head? =
          some (ad, mkUri path ad f, md5) ∧
        (fs ≠ [] →
          Ev.warnMultipleMd5 ∈ (buildLoop ad path ck filtered []).2)) := by
  constructor
  · intro h0
    rw [buildLoop_fst, List.nil_append, filterMap_gBuild_nil ad path ck filtered h0]
    rfl
  · intro hc
    obtain ⟨md5, t, hmd5, hfm⟩ := filterMap_gBuild_cons ad path ck filtered f fs hc
    refine ⟨md5, hmd5, ?_, ?_⟩
    · rw [buildLoop_fst, List.nil_append, hfm]
      rfl
    · intro hne
      apply buildLoop_warn
      · rw [hc]; simp
      · rw [hc]
        cases fs with
        | nil => exact absurd rfl hne
        | cons a l => simp

/-- Witness for C6: two classified files, both with checksums; the first is
emitted and the ambiguity warning is logged. -/
theorem c6_witness :
    ∃ md5, tblLookup "a.fna" [("a.fna", "abc"), ("b.fna", "def")] = some md5 ∧
      (buildLoop "GCF_9" pathC [("a.fna", "abc"), ("b.fna", "def")]
        ["a.fna", "b.fna"] []).1.head? =
        some ("GCF_9", mkUri pathC "GCF_9" "a.fna", md5) ∧
      (["b.fna"] ≠ [] →
        Ev.warnMultipleMd5 ∈ (buildLoop "GCF_9" pathC
          [("a.fna", "abc"), ("b.fna", "def")] ["a.fna", "b.fna"] []).2) :=
  (c6_builder "GCF_9" pathC [("a.fna", "abc"), ("b.fna", "def")]
    ["a.fna", "b.fna"] "a.fna" ["b.fna"]).2 (by rfl)

/-! ## Claim C7 -/

/-- Claim C7, counterexample: when the first listing of an
assembly-directory path fails, nothing is stored in the cache, and a second
resolution call for the same organism performs a second network listing
call for the same path — the combined event logs contain two netMlsd calls
for it, refuting "at most one network listing call per path per process
lifetime". -/
theorem c7_counterexample :
    ((get_current_genome_assembly_files compileC w7 "Apis" "mellifera"
        (.inr .invertebrate) (some "g") emptyCache).2.2 ++
      (get_current_genome_assembly_files compileC w7 "Apis" "mellifera"
        (.inr .invertebrate) (some "g")
        (get_current_genome_assembly_files compileC w7 "Apis" "mellifera"
          (.inr .invertebrate) (some "g") emptyCache).2.1).2.2).count
      (Ev.netMlsd (pathC ++ "/GCF_9")) = 2 := by rfl

/-- Claim C7 as amended: provided the first listing of the path succeeds,
it is stored in the cache before being returned, a later request for the
same path is served from the cache with no network call, and any request
against a cache that already holds the path performs no network call. -/
theorem c7_amended_cache (w : FtpWorld) (p : String) (cache : Cache)
    (files : FtpListing) (hmiss : cache p = none) (hok : w.mlsd p = .ok files) :
    getOrFetchListing w p cache =
      (.ok files, cacheInsert cache p files, [.netMlsd p]) ∧
    cacheInsert cache p files p = some files ∧
    getOrFetchListing w p (cacheInsert cache p files) =
      (.ok files, cacheInsert cache p files, []) ∧
    (∀ (c : Cache) (l : FtpListing), c p = some l →
      getOrFetchListing w p c = (.ok l, c, [])) := by
  have hins : cacheInsert cache p files p = some files := by
    rw [cacheInsert, if_pos rfl]
  refine ⟨?_, hins, ?_, fun c l hc => ?_⟩
  · rw [getOrFetchListing, hmiss, hok]
  · rw [getOrFetchListing, hins]
  · rw [getOrFetchListing, hc]

/-- Witness for the amended C7 at a concrete world and path. -/
theorem c7_amended_witness :
    getOrFetchListing wGood pathC emptyCache =
      (.ok [("GCF_9", [])], cacheInsert emptyCache pathC [("GCF_9", [])],
        [.netMlsd pathC]) ∧
    getOrFetchListing wGood pathC (cacheInsert emptyCache pathC [("GCF_9", [])]) =
      (.ok [("GCF_9", [])], cacheInsert emptyCache pathC [("GCF_9", [])], []) := by
  have h := c7_amended_cache wGood pathC emptyCache [("GCF_9", [])] rfl (by rfl)
  exact ⟨h.1, h.2.2.1⟩

/-! ## Claim C4 -/

/-- Claim C4: with the latest_assembly_versions listing available, zero
accession-filter matches make the resolution return absent (with the
no-assembly-directory diagnostic) without raising; with more than one
match, the first match in listing order is the directory whose contents are
listed next (no semantic-version comparison), and the ambiguity warning is
logged. -/
theorem c4_directory_resolution (compile : String → String → Bool)
    (w : FtpWorld) (genus species : String) (og : OrganismGroup)
    (file_regex : Option String) (cache : Cache) (files : FtpListing)
    (hm : w.mlsd (orgPath og genus species) = .ok files) :
    (accessionCandidates compile files = [] →
      get_current_genome_assembly_files compile w genus species (.inr og)
          file_regex cache =
        (.ok none, cache,
          [.netMlsd (orgPath og genus species), .errNoAssemblyDir])) ∧
    (∀ d1 d2 ds, accessionCandidates compile files = d1 :: d2 :: ds →
      cache (orgPath og genus species ++ "/" ++ d1) = none →
      Ev.warnMultipleAssemblies ∈
        (get_current_genome_assembly_files compile w genus species (.inr og)
          file_regex cache).2.2 ∧
      Ev.netMlsd (orgPath og genus species ++ "/" ++ d1) ∈
        (get_current_genome_assembly_files compile w genus species (.inr og)
          file_regex cache).2.2) := by
  constructor
  · intro h0
    simp only [get_current_genome_assembly_files, coerceGroup, hm,
      filter_ftp_paths_gcaf, h0]
  · intro d1 d2 ds hc2 hcache
    simp only [get_current_genome_assembly_files, coerceGroup, hm,
      filter_ftp_paths_gcaf, hc2, afterDirs, getOrFetchListing, hcache,
      List.isEmpty_cons]
    cases hw : w.mlsd (orgPath og genus species ++ "/" ++ d1) with
    | ok afiles =>
      simp only [hw]
      constructor <;> · (repeat' split) <;> simp_all
    | error err =>
      simp only [hw]
      constructor <;> simp

/-- Witness for C4, zero-match side: a listing with no accession-prefixed
child resolves to absent with the diagnostic; multi-match side: two
accession children produce the ambiguity warning and a listing call for the
first. -/
theorem c4_witness :
    (get_current_genome_assembly_files compileC w4zero "Apis" "mellifera"
        (.inr .invertebrate) (some "g") emptyCache =
      (.ok none, emptyCache, [.netMlsd pathC, .errNoAssemblyDir])) ∧
    (Ev.warnMultipleAssemblies ∈
      (get_current_genome_assembly_files compileC w4multi "Apis" "mellifera"
        (.inr .invertebrate) (some "g") emptyCache).2.2 ∧
     Ev.netMlsd (pathC ++ "/GCF_1") ∈
      (get_current_genome_assembly_files compileC w4multi "Apis" "mellifera"
        (.inr .invertebrate) (some "g") emptyCache).2.2) := by
  constructor
  · exact (c4_directory_resolution compileC w4zero "Apis" "mellifera"
      .invertebrate (some "g") emptyCache [("readme.txt", [])] rfl).1 (by rfl)
  · exact (c4_directory_resolution compileC w4multi "Apis" "mellifera"
      .invertebrate (some "g") emptyCache [("GCF_1", []), ("GCF_2", [])]
      rfl).2 "GCF_1" "GCF_2" [] (by rfl) rfl

/-! ## Claim C5 -/

/-- Claim C5: the directory resolver lists exactly the composed path
/genomes/refseq/group/genus_species (spaces replaced by underscores)
/latest_assembly_versions — it is the first network listing of every
resolution call — and, when the regex engine gives the fixed pattern its
standard meaning, a child of that listing is kept as an assembly-directory
candidate exactly when its stripped name begins with GCA_ or GCF_. -/
theorem c5_path_and_accession_filter (compile : String → String → Bool)
    (w : FtpWorld) (genus species : String) (og : OrganismGroup)
    (file_regex : Option String) (cache : Cache)
    (hc : ∀ s, compile "^GC[AF]_" s =
      (beginsWith "GCA_" s || beginsWith "GCF_" s)) :
    (get_current_genome_assembly_files compile w genus species (.inr og)
        file_regex cache).2.2.head? =
      some (Ev.netMlsd ("/genomes/refseq/" ++ og.toStr ++ "/" ++ genus ++
        "_" ++ replaceSpaces species ++ "/latest_assembly_versions")) ∧
    (∀ files : FtpListing,
      filter_ftp_paths compile files (some "^GC[AF]_") =
        .ok ((files.filter (fun e => beginsWith "GCA_" (pyStrip e.1) ||
          beginsWith "GCF_" (pyStrip e.1))).map Prod.fst)) := by
  constructor
  · show (get_current_genome_assembly_files compile w genus species (.inr og)
        file_regex cache).2.2.head? = some (Ev.netMlsd (orgPath og genus species))
    simp only [get_current_genome_assembly_files, coerceGroup]
    cases hw : w.mlsd (orgPath og genus species) with
    | error e => simp
    | ok files =>
      simp only [filter_ftp_paths_gcaf]
      cases hd : accessionCandidates compile files with
      | nil => simp
      | cons d1 rest =>
        simp only [afterDirs]
        (repeat' split) <;> rfl
  · intro files
    rw [filter_ftp_paths_gcaf, accessionCandidates]
    have hfe : files.filter (fun e => compile "^GC[AF]_" (pyStrip e.1)) =
        files.filter (fun e => beginsWith "GCA_" (pyStrip e.1) ||
          beginsWith "GCF_" (pyStrip e.1)) :=
      List.filter_congr (fun x _ => hc (pyStrip x.1))
    rw [hfe]

/-- Witness for C5 with a concrete engine interpretation, world and
organism. -/
theorem c5_witness :
    (get_current_genome_assembly_files compileC wGood "Apis" "mellifera"
        (.inr .invertebrate) (some "g") emptyCache).2.2.head? =
      some (Ev.netMlsd ("/genomes/refseq/invertebrate/Apis_mellifera/latest_assembly_versions")) ∧
    filter_ftp_paths compileC [("GCF_9", []), ("readme.txt", [])]
        (some "^GC[AF]_") =
      .ok (([("GCF_9", []), ("readme.txt", [])].filter
        (fun e : String × Facts => beginsWith "GCA_" (pyStrip e.1) ||
          beginsWith "GCF_" (pyStrip e.1))).map Prod.fst) := by
  have h := c5_path_and_accession_filter compileC wGood "Apis" "mellifera"
    .invertebrate (some "g") emptyCache (fun s => rfl)
  exact ⟨h.1, h.2 [("GCF_9", []), ("readme.txt", [])]⟩

/-! ## Claim C8 -/

theorem buildLoop_nil_table (ad path : String) :
    ∀ (files : List String) (acc : List (String × String × String)),
    (buildLoop ad path [] files acc).1 = acc := by
  intro files
  induction files with
  | nil => intro acc; rfl
  | cons f rest ih =>
    intro acc
    rw [buildLoop]
    simp only [gBuild, tblLookup, Option.map_none']
    exact ih acc

/-- Claim C8: when fetching the manifest fails with a transport error
(delivering no lines), resolution does not abort: the checksum table is
empty, every classified file has no checksum, and the result for the role
is absent, with the manifest-failure diagnostic logged. -/
theorem c8_manifest_failure_absorbed (compile : String → String → Bool)
    (w : FtpWorld) (genus species : String) (og : OrganismGroup)
    (cache : Cache) (files afiles : FtpListing) (d1 : String)
    (ds : List String) (r : String) (e : FtpErr)
    (hm : w.mlsd (orgPath og genus species) = .ok files)
    (hacc : accessionCandidates compile files = d1 :: ds)
    (hcache : cache (orgPath og genus species ++ "/" ++ d1) = some afiles)
    (hr : r ≠ "")
    (hretr : w.retr (manifestOf (orgPath og genus species) d1) = ([], some e)) :
    (get_current_genome_assembly_files compile w genus species (.inr og)
        (some r) cache).1 = .ok none ∧
    Ev.errMd5Fetch ∈ (get_current_genome_assembly_files compile w genus
        species (.inr og) (some r) cache).2.2 ∧
    (∀ f, tblLookup f (md5TableOf w (orgPath og genus species) d1) = none) := by
  have htbl : md5TableOf w (orgPath og genus species) d1 = [] := by
    rw [md5TableOf, hretr]
    rfl
  refine ⟨?_, ?_, fun f => by rw [htbl]; rfl⟩
  · simp only [get_current_genome_assembly_files, coerceGroup, hm,
      filter_ftp_paths_gcaf, hacc, afterDirs, getOrFetchListing, hcache,
      filter_ftp_paths_some compile afiles r hr, hretr, parseMd5Lines,
      buildLoop_nil_table]
    rfl
  · simp only [get_current_genome_assembly_files, coerceGroup, hm,
      filter_ftp_paths_gcaf, hacc, afterDirs, getOrFetchListing, hcache,
      filter_ftp_paths_some compile afiles r hr, hretr, parseMd5Lines]
    simp

/-- A world whose manifest retrieval fails outright, for the C8 witness. -/
def w8 : FtpWorld where
  mlsd := fun p => if p = pathC then .ok [("GCF_9", [])] else .error .otherErr
  retr := fun _ => ([], some .otherErr)

/-- The cache for the C8 witness, pre-populated with the assembly
directory listing. -/
def cache8 : Cache := cacheInsert emptyCache (pathC ++ "/GCF_9") [("genome.fna", [])]

/-- Witness for C8 at a concrete world with a failing manifest fetch. -/
theorem c8_witness :
    (get_current_genome_assembly_files compileC w8 "Apis" "mellifera"
        (.inr .invertebrate) (some "g") cache8).1 = .ok none ∧
    Ev.errMd5Fetch ∈ (get_current_genome_assembly_files compileC w8 "Apis"
        "mellifera" (.inr .invertebrate) (some "g") cache8).2.2 ∧
    (∀ f, tblLookup f (md5TableOf w8 pathC "GCF_9") = none) :=
  c8_manifest_failure_absorbed compileC w8 "Apis" "mellifera" .invertebrate
    cache8 [("GCF_9", [])] [("genome.fna", [])] "GCF_9" [] "g" .otherErr
    rfl rfl rfl (by decide) rfl

/-! ## Claim C1 -/

/-- Claim C1, counterexample: with the transport session fine (listings
succeed) but the manifest containing a single-token line, the resolution
raises ValueError past its caller instead of absorbing the manifest
condition into an absent result. -/
theorem c1_counterexample :
    (get_current_genome_assembly_files compileC wBad "Apis" "mellifera"
        (.inr .invertebrate) (some "g") emptyCache).1 =
      .error PyExc.valueError := by rfl

/-- Claim C1 as amended: the resolution returns a value (a descriptor or
None) and never raises — absorbing every not-found, listing,
manifest-transport and ambiguity condition into an absent result —
provided the organism group (raw string or enum member) names one of the
thirteen StrEnum values, a nonempty file pattern is supplied, and every
delivered manifest line splits into exactly two whitespace-separated
tokens.  Exactly three conditions escape as exceptions instead of being
absorbed: an unknown organism-group string raises ValueError through the
StrEnum coercion of source lines 59-60 (second conjunct), a missing or
empty file pattern raises AttributeError, and a malformed manifest line
raises ValueError (the counterexample). -/
theorem c1_amended_no_raise (compile : String → String → Bool) (w : FtpWorld)
    (genus species : String) (organism_group : String ⊕ OrganismGroup)
    (r : String) (cache : Cache) (og : OrganismGroup)
    (hg : coerceGroup organism_group = .ok og)
    (hr : r ≠ "")
    (hwf : ∀ p, ∀ l ∈ (w.retr p).1, (reSplitWs l).length = 2) :
    (∃ v, (get_current_genome_assembly_files compile w genus species
        organism_group (some r) cache).1 = .ok v) ∧
    (∀ s, OrganismGroup.fromString s = none →
      (get_current_genome_assembly_files compile w genus species (.inl s)
        (some r) cache).1 = .error PyExc.valueError) := by
  constructor
  · simp only [get_current_genome_assembly_files, hg]
    cases hw : w.mlsd (orgPath og genus species) with
    | error e => exact ⟨none, rfl⟩
    | ok files =>
      simp only [filter_ftp_paths_gcaf]
      cases hd : accessionCandidates compile files with
      | nil => exact ⟨none, rfl⟩
      | cons d1 rest =>
        simp only [afterDirs]
        split
        · exact ⟨none, rfl⟩
        · rename_i afiles cache2 evs heq
          simp only [filter_ftp_paths_some compile afiles r hr]
          obtain ⟨t, ht⟩ := parseMd5Lines_ok
            (w.retr (manifestOf (orgPath og genus species) d1)).1 []
            (hwf (manifestOf (orgPath og genus species) d1))
          simp only [ht]
          exact ⟨_, rfl⟩
  · intro s hs
    simp only [get_current_genome_assembly_files, coerceGroup, hs]

/-- Witness for the amended C1: a raw-string group naming an enum member
resolves without raising at a fully successful world, and an unknown
group string raises ValueError. -/
theorem c1_amended_witness :
    (∃ v, (get_current_genome_assembly_files compileC wGood "Apis" "mellifera"
        (.inl "invertebrate") (some "g") emptyCache).1 = .ok v) ∧
    (get_current_genome_assembly_files compileC wGood "Apis" "mellifera"
        (.inl "no_such_group") (some "g") emptyCache).1 =
      .error PyExc.valueError := by
  have h := c1_amended_no_raise compileC wGood "Apis" "mellifera"
    (.inl "invertebrate") "g" emptyCache .invertebrate rfl (by decide)
    (by
      intro p l hl
      simp only [wGood] at hl
      by_cases hp : p = pathC ++ "/GCF_9/md5checksums.txt"
      · rw [if_pos hp] at hl
        simp only [List.mem_singleton] at hl
        subst hl
        decide
      · rw [if_neg hp] at hl
        simp at hl)
  exact ⟨h.1, h.2 "no_such_group" rfl⟩

/-! ## Claim C9 -/

/-- Claim C9: every descriptor the resolution returns pairs a URI and a
checksum from the same assembly directory: the URI points inside the
directory named by the descriptor accession, the checksum is the
corresponding entry of that same directory manifest (md5checksums.txt),
and the only file retrieval the call performs is that manifest — never
another directory's. -/
theorem c9_same_directory (compile : String → String → Bool) (w : FtpWorld)
    (genus species : String) (og : OrganismGroup) (file_regex : Option String)
    (cache : Cache) (acc uri md5 : String)
    (h : (get_current_genome_assembly_files compile w genus species (.inr og)
        file_regex cache).1 = .ok (some (acc, uri, md5))) :
    ∃ file, uri = mkUri (orgPath og genus species) acc file ∧
      tblLookup file (md5TableOf w (orgPath og genus species) acc) = some md5 ∧
      ∀ q, Ev.netRetr q ∈ (get_current_genome_assembly_files compile w genus
          species (.inr og) file_regex cache).2.2 →
        q = manifestOf (orgPath og genus species) acc := by
  revert h
  simp only [get_current_genome_assembly_files, coerceGroup]
  cases hw : w.mlsd (orgPath og genus species) with
  | error e => intro h; exact absurd h (by simp)
  | ok files =>
    simp only [filter_ftp_paths_gcaf]
    cases hd : accessionCandidates compile files with
    | nil => intro h; exact absurd h (by simp)
    | cons d1 rest =>
      simp only [afterDirs]
      split
      · intro h; exact absurd h (by simp)
      · rename_i afiles cache2 evs heq
        cases hfl : filter_ftp_paths compile afiles file_regex with
        | error e2 => intro h; exact absurd h (by simp)
        | ok filtered =>
          cases hpar : parseMd5Lines
              (w.retr (manifestOf (orgPath og genus species) d1)).1 [] with
          | error e3 => intro h; exact absurd h (by simp)
          | ok checksums =>
            intro h
            simp only [Except.ok.injEq] at h
            rw [buildLoop_fst, List.nil_append] at h
            obtain ⟨file, md5x, hlk, heqd⟩ :=
              head?_filterMap_gBuild d1 (orgPath og genus species) checksums
                filtered (acc, uri, md5) h
            rw [Prod.mk.injEq, Prod.mk.injEq] at heqd
            obtain ⟨h1, h2, h3⟩ := heqd
            subst h1
            subst h2
            subst h3
            refine ⟨file, rfl, ?_, ?_⟩
            · simp only [md5TableOf, hpar]
              exact hlk
            · intro q hq
              rcases List.mem_cons.mp hq with hq | hq
              · exact absurd hq (by simp)
              rcases List.mem_append.mp hq with hq | hq2
              · rcases List.mem_append.mp hq with hq | hq3
                · rcases List.mem_append.mp hq with hq | hq4
                  · rcases List.mem_append.mp hq with hq | hq5
                    · revert hq
                      split <;> · intro hq; simp at hq
                    · have hev := getOrFetchListing_evs w
                        (orgPath og genus species ++ "/" ++ acc) cache
                        (Ev.netRetr q) (by rw [heq]; exact hq5)
                      exact absurd hev (by simp)
                  · simp only [List.mem_singleton] at hq4
                    simpa using hq4
                · revert hq3
                  split <;> · intro hq3; simp at hq3
              · have hev := buildLoop_evs_mem acc (orgPath og genus species)
                  checksums filtered [] (Ev.netRetr q) hq2
                rcases hev with hev | hev <;> exact absurd hev (by simp)

/-- Witness for C9 at a fully successful world. -/
theorem c9_witness :
    ∃ file, mkUri pathC "GCF_9" "genome.fna" = mkUri pathC "GCF_9" file ∧
      tblLookup file (md5TableOf wGood pathC "GCF_9") = some "abc" ∧
      ∀ q, Ev.netRetr q ∈ (get_current_genome_assembly_files compileC wGood
          "Apis" "mellifera" (.inr .invertebrate) (some "g")
          emptyCache).2.2 →
        q = manifestOf pathC "GCF_9" :=
  c9_same_directory compileC wGood "Apis" "mellifera" .invertebrate
    (some "g") emptyCache "GCF_9" (mkUri pathC "GCF_9" "genome.fna") "abc"
    (by rfl)

end BlastDb
